import Mathlib

/-!
Verification of the turtle-walk engine of the data_walker repository.

The repository's scripts (src/scripts/dna_walk_base12.py, download_amazon.py,
generate_math_walks.py, and five siblings) all contain the same `Turtle3D`
class: a 3D turtle that consumes base-12 digits and, per digit, either
translates one unit along a local axis rotated into world coordinates, or
left-multiplies a 15-degree axis rotation onto its orientation, appending its
position to a path after every step.

This file embeds that engine shallowly.  Scalars are taken in an arbitrary
commutative ring `K` carrying two distinguished elements `c` and `s` standing
for `cos(radians(15))` and `sin(radians(15))`; the scripts instantiate them at
the real cosine and sine of 15 degrees (`cos15`, `sin15` below), and witnesses
instantiate them at rational points such as `c = 0, s = 1` (any point with
`c*c + s*s = 1` when orthonormality is needed).  scipy's `Rotation` objects
become 3x3 matrices: `Rotation.apply` is matrix-vector application, `p * q` is
the matrix product `p.mul q`, and `Rotation.from_rotvec(axis * radians(15))`
for a unit `axis` is the Rodrigues rotation matrix `rodrigues c s axis`.
Python list indexing (which raises `IndexError` out of range and wraps
negative indices) is modelled by `pyGet`; operations that can raise return
`Option`, with `none` standing for a raised exception.
-/

namespace DataWalker

/-- A 3D point or vector with coordinates in `K`; embeds the length-3 numpy
arrays used for positions, direction vectors and rotation axes. -/
structure Vec3 (K : Type) where
  x : K
  y : K
  z : K
deriving DecidableEq

/-- A 3x3 matrix over `K`, written out entrywise; embeds the rotation-matrix
view of a scipy `Rotation` (row `i`, column `j` is `mIJ`). -/
structure Mat3 (K : Type) where
  m00 : K
  m01 : K
  m02 : K
  m10 : K
  m11 : K
  m12 : K
  m20 : K
  m21 : K
  m22 : K
deriving DecidableEq

/-- Componentwise vector addition (`self.position + world_dir`). -/
def Vec3.add {K : Type} [CommRing K] (v w : Vec3 K) : Vec3 K :=
  ⟨v.x + w.x, v.y + w.y, v.z + w.z⟩

instance {K : Type} [CommRing K] : Add (Vec3 K) := ⟨Vec3.add⟩

/-- Componentwise vector subtraction, used to state distances between
consecutive path points. -/
def Vec3.sub {K : Type} [CommRing K] (v w : Vec3 K) : Vec3 K :=
  ⟨v.x - w.x, v.y - w.y, v.z - w.z⟩

instance {K : Type} [CommRing K] : Sub (Vec3 K) := ⟨Vec3.sub⟩

/-- Squared Euclidean norm of a vector.  Over the reals the Euclidean
distance of the spec is its square root, so `normSq v = 1` states that the
Euclidean length is exactly 1. -/
def Vec3.normSq {K : Type} [CommRing K] (v : Vec3 K) : K :=
  v.x * v.x + v.y * v.y + v.z * v.z

/-- The identity matrix; embeds `Rotation.identity()`. -/
def Mat3.one {K : Type} [CommRing K] : Mat3 K :=
  ⟨1, 0, 0, 0, 1, 0, 0, 0, 1⟩

/-- Matrix product; embeds scipy's `Rotation` composition `p * q`
(apply `q` first, then `p`). -/
def Mat3.mul {K : Type} [CommRing K] (A B : Mat3 K) : Mat3 K :=
  ⟨A.m00 * B.m00 + A.m01 * B.m10 + A.m02 * B.m20,
   A.m00 * B.m01 + A.m01 * B.m11 + A.m02 * B.m21,
   A.m00 * B.m02 + A.m01 * B.m12 + A.m02 * B.m22,
   A.m10 * B.m00 + A.m11 * B.m10 + A.m12 * B.m20,
   A.m10 * B.m01 + A.m11 * B.m11 + A.m12 * B.m21,
   A.m10 * B.m02 + A.m11 * B.m12 + A.m12 * B.m22,
   A.m20 * B.m00 + A.m21 * B.m10 + A.m22 * B.m20,
   A.m20 * B.m01 + A.m21 * B.m11 + A.m22 * B.m21,
   A.m20 * B.m02 + A.m21 * B.m12 + A.m22 * B.m22⟩

/-- Matrix-vector application; embeds `Rotation.apply(v)`. -/
def Mat3.mulVec {K : Type} [CommRing K] (A : Mat3 K) (v : Vec3 K) : Vec3 K :=
  ⟨A.m00 * v.x + A.m01 * v.y + A.m02 * v.z,
   A.m10 * v.x + A.m11 * v.y + A.m12 * v.z,
   A.m20 * v.x + A.m21 * v.y + A.m22 * v.z⟩

/-- Matrix transpose, used to state orthonormality of orientations. -/
def Mat3.transpose {K : Type} [CommRing K] (A : Mat3 K) : Mat3 K :=
  ⟨A.m00, A.m10, A.m20, A.m01, A.m11, A.m21, A.m02, A.m12, A.m22⟩

/-- `M` is a (real-)orthogonal matrix: its transpose is a left inverse.
This is the "valid proper rotation" invariant of the orientation state. -/
def Mat3.IsOrtho {K : Type} [CommRing K] (A : Mat3 K) : Prop :=
  A.transpose.mul A = Mat3.one

/-- Rodrigues rotation matrix `cos t * I + sin t * [u]x + (1 - cos t) u uT`
for a unit axis `u`, with `c = cos t` and `s = sin t`.  This is what
`Rotation.from_rotvec(u * t)` produces for a unit vector `u`; the scripts
only ever call `from_rotvec` on the six signed coordinate axes scaled by
`radians(15)`. -/
def rodrigues {K : Type} [CommRing K] (c s : K) (u : Vec3 K) : Mat3 K :=
  ⟨c + (1 - c) * u.x * u.x,
   s * (-u.z) + (1 - c) * u.x * u.y,
   s * u.y + (1 - c) * u.x * u.z,
   s * u.z + (1 - c) * u.y * u.x,
   c + (1 - c) * u.y * u.y,
   s * (-u.x) + (1 - c) * u.y * u.z,
   s * (-u.y) + (1 - c) * u.z * u.x,
   s * u.x + (1 - c) * u.z * u.y,
   c + (1 - c) * u.z * u.z⟩

/-- Python list indexing `xs[i]` for an integer index: nonnegative indices
are looked up directly, negative indices wrap once from the end, and
anything out of range raises `IndexError` (modelled as `none`). -/
def pyGet {α : Type} (xs : List α) (i : ℤ) : Option α :=
  if 0 ≤ i then xs[i.toNat]?
  else if 0 ≤ i + xs.length then xs[(i + (xs.length : ℤ)).toNat]?
  else none

/-- The `local_dirs` table of `Turtle3D.move`: unit translation vectors
+X, -X, +Y, -Y, +Z, -Z in the turtle's local frame, indexed by commands
0 to 5. -/
def localDirs (K : Type) [CommRing K] : List (Vec3 K) :=
  [⟨1, 0, 0⟩, ⟨-1, 0, 0⟩, ⟨0, 1, 0⟩, ⟨0, -1, 0⟩, ⟨0, 0, 1⟩, ⟨0, 0, -1⟩]

/-- The `axes` table of `Turtle3D.move`: rotation axes +X, -X, +Y, -Y,
+Z, -Z, indexed by `command - 6` for commands 6 to 11. -/
def rotAxes (K : Type) [CommRing K] : List (Vec3 K) :=
  [⟨1, 0, 0⟩, ⟨-1, 0, 0⟩, ⟨0, 1, 0⟩, ⟨0, -1, 0⟩, ⟨0, 0, 1⟩, ⟨0, 0, -1⟩]

/-- The `Turtle3D` state: position, orientation and the accumulated path.
Identical class in dna_walk_base12.py, download_amazon.py,
generate_math_walks.py and the other five scripts. -/
structure Turtle3D (K : Type) where
  position : Vec3 K
  rotation : Mat3 K
  path : List (Vec3 K)
deriving DecidableEq

/-- `Turtle3D.__init__`: origin position, identity orientation, and a path
already holding the initial position. -/
def Turtle3D.init {K : Type} [CommRing K] : Turtle3D K :=
  { position := ⟨0, 0, 0⟩, rotation := Mat3.one, path := [⟨0, 0, 0⟩] }

/-- `Turtle3D.move(direction, mapping)`.  The digit is reduced mod 12
(Python `%`, hence `Int.emod` with nonnegative result), looked up in the
mapping, and the resulting command either translates one unit along the
rotated local axis or left-multiplies a 15-degree rotation about the fixed
canonical axis onto the orientation; the (possibly unchanged) position is
then appended to the path.  `none` models a raised `IndexError` from one of
the three list lookups. -/
def Turtle3D.move {K : Type} [CommRing K] (c s : K) (t : Turtle3D K)
    (direction : ℤ) (mapping : List ℤ) : Option (Turtle3D K) :=
  (pyGet mapping (direction % 12)).bind fun d =>
    if d < 6 then
      (pyGet (localDirs K) d).bind fun localDir =>
        let worldDir := t.rotation.mulVec localDir
        let pos := t.position + worldDir
        some { position := pos, rotation := t.rotation, path := t.path ++ [pos] }
    else
      (pyGet (rotAxes K) (d - 6)).bind fun axis =>
        let deltaRot := rodrigues c s axis
        some { position := t.position, rotation := deltaRot.mul t.rotation,
               path := t.path ++ [t.position] }

/-- Written from the spec's words for the rotation branch, for comparison
with `Turtle3D.move`: "the incremental rotation is constructed as a
world-frame rotation about the image of the local axis under the current
orientation, then left-multiplied onto the current orientation" — i.e. the
axis is first pushed through `t.rotation`, so rotations accumulate as
local-frame turns.  The translation branch is unchanged. -/
def Turtle3D.moveLocalFrame {K : Type} [CommRing K] (c s : K) (t : Turtle3D K)
    (direction : ℤ) (mapping : List ℤ) : Option (Turtle3D K) :=
  (pyGet mapping (direction % 12)).bind fun d =>
    if d < 6 then
      (pyGet (localDirs K) d).bind fun localDir =>
        let worldDir := t.rotation.mulVec localDir
        let pos := t.position + worldDir
        some { position := pos, rotation := t.rotation, path := t.path ++ [pos] }
    else
      (pyGet (rotAxes K) (d - 6)).bind fun axis =>
        let deltaRot := rodrigues c s (t.rotation.mulVec axis)
        some { position := t.position, rotation := deltaRot.mul t.rotation,
               path := t.path ++ [t.position] }

/-- The caller loop `for d in seq: turtle.move(d, mapping)`, folded over the
digit list; a failure (raised exception) in any step aborts the walk. -/
def Turtle3D.run {K : Type} [CommRing K] (c s : K) (t : Turtle3D K)
    (digits : List ℤ) (mapping : List ℤ) : Option (Turtle3D K) :=
  match digits with
  | [] => some t
  | d :: rest => (t.move c s d mapping).bind fun t2 => t2.run c s rest mapping

/-- Python slicing `xs[::stride]` for `stride >= 1`: the elements at indices
`0, stride, 2*stride, ...`. -/
def subsample {α : Type} (xs : List α) (stride : ℕ) : List α :=
  match xs with
  | [] => []
  | a :: rest => a :: subsample (rest.drop (stride - 1)) stride
termination_by xs.length
decreasing_by
  simp only [List.length_drop, List.length_cons]
  omega

/-- `list(range(12))`, the identity digit-to-command mapping
(`IDENTITY_MAPPING` in generate_math_walks.py and the default of
`compute_walk`). -/
def IDENTITY_MAPPING : List ℤ := [0, 1, 2, 3, 4, 5, 6, 7, 8, 9, 10, 11]

/-- `SPIRAL_MAPPING = [0, 2, 4, 6, 8, 10, 1, 3, 5, 7, 9, 11]` from
dna_walk_base12.py. -/
def SPIRAL_MAPPING : List ℤ := [0, 2, 4, 6, 8, 10, 1, 3, 5, 7, 9, 11]

/-- `OPTIMAL_MAPPING = [0, 1, 2, 3, 4, 5, 6, 7, 10, 9, 8, 11]` from
download_amazon.py. -/
def OPTIMAL_MAPPING : List ℤ := [0, 1, 2, 3, 4, 5, 6, 7, 10, 9, 8, 11]

/-- A well-formed command mapping per the spec's data model: a length-12
bijection array with values in `0..11` (each value appearing exactly once). -/
def ValidMapping (m : List ℤ) : Prop :=
  m.length = 12 ∧ m.Nodup ∧ ∀ v ∈ m, 0 ≤ v ∧ v < 12

instance : DecidablePred ValidMapping := fun m => by
  unfold ValidMapping
  infer_instance

/-- The result dictionary of `compute_walk` in download_amazon.py and
generate_math_walks.py: the turtle path under key `points` and the full
digit list under key `base12`. -/
structure WalkResult (K : Type) where
  points : List (Vec3 K)
  base12 : List ℤ
deriving DecidableEq

/-- `compute_walk(base12_seq, mapping, max_points)` of download_amazon.py /
generate_math_walks.py: fixed-stride subsampling with
`stride = max(1, len // max_points)`, a fresh turtle walk over the
subsampled digits, and a result holding the path and the full, unsubsampled
digit list.  `max_points = 0` raises `ZeroDivisionError` in Python, modelled
as `none`; a lookup failure inside the walk likewise yields `none`. -/
def compute_walk {K : Type} [CommRing K] (c s : K) (base12_seq : List ℤ)
    (mapping : List ℤ) (max_points : ℕ) : Option (WalkResult K) :=
  if max_points = 0 then none
  else
    let stride := max 1 (base12_seq.length / max_points)
    let seq := subsample base12_seq stride
    (Turtle3D.init.run c s seq mapping).map
      fun t => { points := t.path, base12 := base12_seq }

/-- `compute_walk_features(base12_seq, mapping, max_points)` of
dna_walk_base12.py, lines 141-147: an explicit `return None` guard on the
empty digit sequence, then the same fixed-stride subsampling and fresh
turtle walk.  Of the returned dictionary this embedding keeps the fields the
spec's engine owns — `path` (the turtle path) and `path_length`
(`len(seq)`, the subsampled length); the remaining entries are floating-point
summary statistics of the path (max_dist, ranges, compactness, flatness),
declared out of scope by the spec.  The outer `Option` models raised
exceptions; the inner `Option` models Python's explicit `None` return. -/
def compute_walk_features {K : Type} [CommRing K] (c s : K)
    (base12_seq : List ℤ) (mapping : List ℤ) (max_points : ℕ) :
    Option (Option (List (Vec3 K) × ℕ)) :=
  if base12_seq.length = 0 then some none
  else if max_points = 0 then none
  else
    let stride := max 1 (base12_seq.length / max_points)
    let seq := subsample base12_seq stride
    (Turtle3D.init.run c s seq mapping).map fun t => some (t.path, seq.length)

/-- The cosine of `np.radians(15)`, the scripts' actual rotation-angle
cosine. -/
noncomputable def cos15 : ℝ := Real.cos (Real.pi / 12)

/-- The sine of `np.radians(15)`, the scripts' actual rotation-angle
sine. -/
noncomputable def sin15 : ℝ := Real.sin (Real.pi / 12)

/-! ### Matrix algebra -/

theorem Mat3.mul_assoc {K : Type} [CommRing K] (A B C : Mat3 K) :
    (A.mul B).mul C = A.mul (B.mul C) := by
  simp only [Mat3.mul, Mat3.mk.injEq]
  refine ⟨?_, ?_, ?_, ?_, ?_, ?_, ?_, ?_, ?_⟩ <;> ring

theorem Mat3.one_mul {K : Type} [CommRing K] (A : Mat3 K) :
    Mat3.one.mul A = A := by
  cases A
  simp only [Mat3.mul, Mat3.one, Mat3.mk.injEq]
  refine ⟨?_, ?_, ?_, ?_, ?_, ?_, ?_, ?_, ?_⟩ <;> ring

theorem Mat3.mul_one {K : Type} [CommRing K] (A : Mat3 K) :
    A.mul Mat3.one = A := by
  cases A
  simp only [Mat3.mul, Mat3.one, Mat3.mk.injEq]
  refine ⟨?_, ?_, ?_, ?_, ?_, ?_, ?_, ?_, ?_⟩ <;> ring

theorem Mat3.transpose_mul {K : Type} [CommRing K] (A B : Mat3 K) :
    (A.mul B).transpose = B.transpose.mul A.transpose := by
  simp only [Mat3.mul, Mat3.transpose, Mat3.mk.injEq]
  refine ⟨?_, ?_, ?_, ?_, ?_, ?_, ?_, ?_, ?_⟩ <;> ring

theorem Mat3.isOrtho_one {K : Type} [CommRing K] : (Mat3.one (K := K)).IsOrtho := by
  simp only [Mat3.IsOrtho, Mat3.transpose, Mat3.one, Mat3.mul, Mat3.mk.injEq]
  refine ⟨?_, ?_, ?_, ?_, ?_, ?_, ?_, ?_, ?_⟩ <;> ring

theorem Mat3.isOrtho_mul {K : Type} [CommRing K] {A B : Mat3 K}
    (hA : A.IsOrtho) (hB : B.IsOrtho) : (A.mul B).IsOrtho := by
  unfold Mat3.IsOrtho at *
  rw [Mat3.transpose_mul, Mat3.mul_assoc, ← Mat3.mul_assoc A.transpose, hA,
    Mat3.one_mul, hB]

theorem Mat3.normSq_mulVec {K : Type} [CommRing K] {A : Mat3 K}
    (hA : A.IsOrtho) (v : Vec3 K) : (A.mulVec v).normSq = v.normSq := by
  unfold Mat3.IsOrtho at hA
  have h00 := congrArg Mat3.m00 hA
  have h01 := congrArg Mat3.m01 hA
  have h02 := congrArg Mat3.m02 hA
  have h10 := congrArg Mat3.m10 hA
  have h11 := congrArg Mat3.m11 hA
  have h12 := congrArg Mat3.m12 hA
  have h20 := congrArg Mat3.m20 hA
  have h21 := congrArg Mat3.m21 hA
  have h22 := congrArg Mat3.m22 hA
  simp only [Mat3.transpose, Mat3.mul, Mat3.one] at h00 h01 h02 h10 h11 h12 h20 h21 h22
  simp only [Vec3.normSq, Mat3.mulVec]
  linear_combination (v.x * v.x) * h00 + (v.x * v.y) * h01 + (v.x * v.z) * h02 +
    (v.y * v.x) * h10 + (v.y * v.y) * h11 + (v.y * v.z) * h12 +
    (v.z * v.x) * h20 + (v.z * v.y) * h21 + (v.z * v.z) * h22

theorem isOrtho_rodrigues_axis {K : Type} [CommRing K] {c s : K}
    (hcs : c * c + s * s = 1) {u : Vec3 K} (hu : u ∈ rotAxes K) :
    (rodrigues c s u).IsOrtho := by
  simp only [rotAxes, List.mem_cons, List.not_mem_nil, or_false] at hu
  rcases hu with h | h | h | h | h | h <;>
    (subst h
     simp only [Mat3.IsOrtho, rodrigues, Mat3.transpose, Mat3.mul, Mat3.one,
       Mat3.mk.injEq]
     refine ⟨?_, ?_, ?_, ?_, ?_, ?_, ?_, ?_, ?_⟩ <;>
       first
         | ring1
         | linear_combination hcs)

theorem normSq_localDir {K : Type} [CommRing K] {v : Vec3 K}
    (hv : v ∈ localDirs K) : v.normSq = 1 := by
  simp only [localDirs, List.mem_cons, List.not_mem_nil, or_false] at hv
  rcases hv with h | h | h | h | h | h <;>
    (subst h
     simp only [Vec3.normSq]
     ring)

/-! ### Lookup lemmas -/

theorem pyGet_eq_some {α : Type} {xs : List α} {i : ℤ} (h0 : 0 ≤ i)
    (h1 : i < (xs.length : ℤ)) : ∃ a, pyGet xs i = some a ∧ a ∈ xs := by
  unfold pyGet
  rw [if_pos h0]
  have hlt : i.toNat < xs.length := by omega
  exact ⟨xs[i.toNat], List.getElem?_eq_getElem hlt, List.getElem_mem hlt⟩

theorem pyGet_mem {α : Type} {xs : List α} {i : ℤ} {a : α}
    (h : pyGet xs i = some a) : a ∈ xs := by
  unfold pyGet at h
  split_ifs at h <;>
    (obtain ⟨hn, rfl⟩ := List.getElem?_eq_some.mp h
     exact List.getElem_mem hn)

/-! ### Single-step lemmas about `Turtle3D.move` -/

theorem Turtle3D.move_path {K : Type} [CommRing K] {c s : K} {t t2 : Turtle3D K}
    {d : ℤ} {m : List ℤ} (h : t.move c s d m = some t2) :
    t2.path = t.path ++ [t2.position] := by
  unfold Turtle3D.move at h
  rcases hx : pyGet m (d % 12) with _ | dd
  · rw [hx] at h
    simp at h
  · rw [hx] at h
    simp only [Option.some_bind] at h
    by_cases hd : dd < 6
    · rw [if_pos hd] at h
      rcases hy : pyGet (localDirs K) dd with _ | v
      · rw [hy] at h
        simp at h
      · rw [hy] at h
        simp only [Option.some_bind, Option.some.injEq] at h
        subst h
        rfl
    · rw [if_neg hd] at h
      rcases hy : pyGet (rotAxes K) (dd - 6) with _ | a
      · rw [hy] at h
        simp at h
      · rw [hy] at h
        simp only [Option.some_bind, Option.some.injEq] at h
        subst h
        rfl

theorem Turtle3D.move_getLast {K : Type} [CommRing K] {c s : K}
    {t t2 : Turtle3D K} {d : ℤ} {m : List ℤ} (h : t.move c s d m = some t2) :
    t2.path.getLast? = some t2.position := by
  rw [Turtle3D.move_path h]
  exact List.getLast?_concat _

theorem Turtle3D.move_some_of_inRange {K : Type} [CommRing K] (c s : K)
    (t : Turtle3D K) (d : ℤ) {m : List ℤ} (hlen : m.length = 12)
    (hvals : ∀ v ∈ m, 0 ≤ v ∧ v < 12) :
    ∃ t2, t.move c s d m = some t2 := by
  have h0 : (0 : ℤ) ≤ d % 12 := Int.emod_nonneg d (by norm_num)
  have h12 : d % 12 < 12 := Int.emod_lt_of_pos d (by norm_num)
  have hmlen : d % 12 < (m.length : ℤ) := by rw [hlen]; exact_mod_cast h12
  obtain ⟨dd, hdd, hmem⟩ := pyGet_eq_some h0 hmlen
  obtain ⟨hge, hlt⟩ := hvals dd hmem
  unfold Turtle3D.move
  rw [hdd]
  simp only [Option.some_bind]
  by_cases hd : dd < 6
  · rw [if_pos hd]
    have hllen : dd < ((localDirs K).length : ℤ) := by
      simp only [localDirs, List.length_cons, List.length_nil]
      omega
    obtain ⟨v, hv, -⟩ := pyGet_eq_some hge hllen
    rw [hv]
    exact ⟨_, rfl⟩
  · rw [if_neg hd]
    have hr0 : (0 : ℤ) ≤ dd - 6 := by omega
    have hrlen : dd - 6 < ((rotAxes K).length : ℤ) := by
      simp only [rotAxes, List.length_cons, List.length_nil]
      omega
    obtain ⟨a, ha, -⟩ := pyGet_eq_some hr0 hrlen
    rw [ha]
    exact ⟨_, rfl⟩

theorem Turtle3D.move_ortho {K : Type} [CommRing K] {c s : K}
    (hcs : c * c + s * s = 1) {t t2 : Turtle3D K} {d : ℤ} {m : List ℤ}
    (hO : t.rotation.IsOrtho) (h : t.move c s d m = some t2) :
    t2.rotation.IsOrtho := by
  unfold Turtle3D.move at h
  rcases hx : pyGet m (d % 12) with _ | dd
  · rw [hx] at h
    simp at h
  · rw [hx] at h
    simp only [Option.some_bind] at h
    by_cases hd : dd < 6
    · rw [if_pos hd] at h
      rcases hy : pyGet (localDirs K) dd with _ | v
      · rw [hy] at h
        simp at h
      · rw [hy] at h
        simp only [Option.some_bind, Option.some.injEq] at h
        subst h
        exact hO
    · rw [if_neg hd] at h
      rcases hy : pyGet (rotAxes K) (dd - 6) with _ | a
      · rw [hy] at h
        simp at h
      · rw [hy] at h
        simp only [Option.some_bind, Option.some.injEq] at h
        subst h
        exact Mat3.isOrtho_mul (isOrtho_rodrigues_axis hcs (pyGet_mem hy)) hO

/-! ### Lemmas about `Turtle3D.run` -/

theorem Turtle3D.run_path_length {K : Type} [CommRing K] {c s : K}
    {m : List ℤ} {digits : List ℤ} :
    ∀ {t t2 : Turtle3D K}, t.run c s digits m = some t2 →
      t2.path.length = t.path.length + digits.length := by
  induction digits with
  | nil =>
    intro t t2 h
    simp only [Turtle3D.run, Option.some.injEq] at h
    subst h
    simp
  | cons d rest ih =>
    intro t t2 h
    simp only [Turtle3D.run] at h
    rcases hmv : t.move c s d m with _ | t1
    · rw [hmv] at h
      simp at h
    · rw [hmv] at h
      simp only [Option.some_bind] at h
      have hlen := ih h
      have hp := Turtle3D.move_path hmv
      rw [hlen, hp]
      simp only [List.length_append, List.length_cons, List.length_nil]
      omega

theorem Turtle3D.run_head {K : Type} [CommRing K] {c s : K}
    {m : List ℤ} {digits : List ℤ} :
    ∀ {t t2 : Turtle3D K}, t.path ≠ [] → t.run c s digits m = some t2 →
      t2.path.head? = t.path.head? := by
  induction digits with
  | nil =>
    intro t t2 _ h
    simp only [Turtle3D.run, Option.some.injEq] at h
    subst h
    rfl
  | cons d rest ih =>
    intro t t2 hne h
    simp only [Turtle3D.run] at h
    rcases hmv : t.move c s d m with _ | t1
    · rw [hmv] at h
      simp at h
    · rw [hmv] at h
      simp only [Option.some_bind] at h
      have hp := Turtle3D.move_path hmv
      rcases hpath : t.path with _ | ⟨p, ps⟩
      · exact absurd hpath hne
      · have h1ne : t1.path ≠ [] := by
          rw [hp, hpath]
          simp
        have := ih h1ne h
        rw [this, hp, hpath]
        simp

theorem Turtle3D.run_getLast {K : Type} [CommRing K] {c s : K}
    {m : List ℤ} {digits : List ℤ} :
    ∀ {t t2 : Turtle3D K}, t.path.getLast? = some t.position →
      t.run c s digits m = some t2 → t2.path.getLast? = some t2.position := by
  induction digits with
  | nil =>
    intro t t2 hlast h
    simp only [Turtle3D.run, Option.some.injEq] at h
    subst h
    exact hlast
  | cons d rest ih =>
    intro t t2 _ h
    simp only [Turtle3D.run] at h
    rcases hmv : t.move c s d m with _ | t1
    · rw [hmv] at h
      simp at h
    · rw [hmv] at h
      simp only [Option.some_bind] at h
      exact ih (Turtle3D.move_getLast hmv) h

theorem Turtle3D.run_ortho {K : Type} [CommRing K] {c s : K}
    (hcs : c * c + s * s = 1) {m : List ℤ} {digits : List ℤ} :
    ∀ {t t2 : Turtle3D K}, t.rotation.IsOrtho →
      t.run c s digits m = some t2 → t2.rotation.IsOrtho := by
  induction digits with
  | nil =>
    intro t t2 hO h
    simp only [Turtle3D.run, Option.some.injEq] at h
    subst h
    exact hO
  | cons d rest ih =>
    intro t t2 hO h
    simp only [Turtle3D.run] at h
    rcases hmv : t.move c s d m with _ | t1
    · rw [hmv] at h
      simp at h
    · rw [hmv] at h
      simp only [Option.some_bind] at h
      exact ih (Turtle3D.move_ortho hcs hO hmv) h

theorem Turtle3D.run_some_of_inRange {K : Type} [CommRing K] (c s : K)
    {m : List ℤ} (digits : List ℤ) (hlen : m.length = 12)
    (hvals : ∀ v ∈ m, 0 ≤ v ∧ v < 12) :
    ∀ t : Turtle3D K, ∃ t2, t.run c s digits m = some t2 := by
  induction digits with
  | nil =>
    intro t
    exact ⟨t, rfl⟩
  | cons d rest ih =>
    intro t
    obtain ⟨t1, hmv⟩ := Turtle3D.move_some_of_inRange c s t d hlen hvals
    obtain ⟨t2, hrun⟩ := ih t1
    refine ⟨t2, ?_⟩
    simp only [Turtle3D.run]
    rw [hmv]
    simpa using hrun

/-! ### Subsampling lemmas -/

theorem subsample_nil {α : Type} (k : ℕ) : subsample ([] : List α) k = [] := by
  simp [subsample]

theorem subsample_length {α : Type} {k : ℕ} (hk : 1 ≤ k) (xs : List α) :
    (subsample xs k).length = (xs.length + k - 1) / k := by
  have H : ∀ n, ∀ xs : List α, xs.length = n →
      (subsample xs k).length = (xs.length + k - 1) / k := by
    intro n
    induction n using Nat.strong_induction_on with
    | _ n ih =>
      intro xs hn
      match xs with
      | [] =>
        simp only [subsample, List.length_nil]
        rw [Nat.div_eq_of_lt (by omega)]
      | a :: rest =>
        have hd : (rest.drop (k - 1)).length = rest.length - (k - 1) :=
          List.length_drop _ _
        have hlt : (rest.drop (k - 1)).length < n := by
          simp only [List.length_cons] at hn
          omega
        simp only [subsample, List.length_cons]
        rw [ih _ hlt _ rfl, hd]
        have e0 : rest.length + 1 + k - 1 = rest.length + k := by omega
        rw [e0]
        rcases Nat.lt_or_ge rest.length (k - 1) with hm | hm
        · have e1 : rest.length - (k - 1) + k - 1 = k - 1 := by omega
          rw [e1, Nat.div_eq_of_lt (by omega)]
          have e2 : rest.length + k = rest.length + 1 * k := by omega
          rw [e2, Nat.add_mul_div_right _ _ (by omega : 0 < k),
            Nat.div_eq_of_lt (by omega)]
        · have e1 : rest.length - (k - 1) + k - 1 = rest.length := by omega
          rw [e1]
          have e2 : rest.length + k = rest.length + 1 * k := by omega
          rw [e2, Nat.add_mul_div_right _ _ (by omega : 0 < k)]
  exact H xs.length xs rfl

theorem subsample_getElem {α : Type} {k : ℕ} (hk : 1 ≤ k) (xs : List α)
    (i : ℕ) : (subsample xs k)[i]? = xs[i * k]? := by
  have H : ∀ n, ∀ xs : List α, xs.length = n → ∀ i : ℕ,
      (subsample xs k)[i]? = xs[i * k]? := by
    intro n
    induction n using Nat.strong_induction_on with
    | _ n ih =>
      intro xs hn i
      match xs with
      | [] =>
        simp [subsample]
      | a :: rest =>
        have hlt : (rest.drop (k - 1)).length < n := by
          simp only [List.length_drop, List.length_cons] at *
          omega
        match i with
        | 0 => simp [subsample]
        | j + 1 =>
          have e1 : (j + 1) * k = (k - 1 + j * k) + 1 := by
            have : (j + 1) * k = j * k + k := by ring
            omega
          simp only [subsample, List.getElem?_cons_succ]
          rw [ih _ hlt _ rfl j, List.getElem?_drop, e1, List.getElem?_cons_succ]
  exact H xs.length xs rfl i

/-- `mp + q ≤ mp * q + 1` for positive `mp`, `q`: the elementary bound behind
the subsample-count estimates. -/
theorem add_le_mul_succ {mp q : ℕ} (hmp : 0 < mp) (hq : 0 < q) :
    mp + q ≤ mp * q + 1 := by
  rcases Nat.lt_or_ge mp 2 with h1 | h1
  · have : mp = 1 := by omega
    subst this
    omega
  · rcases Nat.lt_or_ge q 2 with h2 | h2
    · have : q = 1 := by omega
      subst this
      omega
    · have := Nat.add_le_mul h1 h2
      omega

/-- The number of entries selected by stride `max 1 (n / mp)` out of `n` is
at most `2 * mp - 1` (and this is tight at `n = 2 * mp - 1`). -/
theorem stride_count_le {n mp : ℕ} (hmp : 0 < mp) :
    (n + max 1 (n / mp) - 1) / max 1 (n / mp) ≤ 2 * mp - 1 := by
  rcases Nat.eq_zero_or_pos (n / mp) with h0 | hpos
  · rw [h0]
    have hn : n < mp := by
      by_contra hge
      push_neg at hge
      have h1 : 1 ≤ n / mp := (Nat.one_le_div_iff hmp).mpr hge
      omega
    have hone : max 1 (0 : ℕ) = 1 := rfl
    rw [hone]
    simp only [Nat.add_sub_cancel, Nat.div_one]
    omega
  · have hmax : max 1 (n / mp) = n / mp := by omega
    rw [hmax]
    set q := n / mp with hqdef
    have hdm := Nat.div_add_mod n mp
    rw [← hqdef] at hdm
    have hmod : n % mp < mp := Nat.mod_lt _ hmp
    have hmq : mp + q ≤ mp * q + 1 := add_le_mul_succ hmp hpos
    have hlt : (n + q - 1) / q < 2 * mp := by
      rw [Nat.div_lt_iff_lt_mul hpos]
      have ha : 2 * mp * q = 2 * (mp * q) := by ring
      rw [ha]
      generalize mp * q = P at hdm hmq ⊢
      omega
    omega

/-- When the stride `n / mp` is at least 2, the subsample count
`ceil(n / stride)` is strictly below `n`. -/
theorem stride_count_lt {n mp : ℕ} (hq2 : 2 ≤ n / mp) :
    (n + n / mp - 1) / (n / mp) < n := by
  set q := n / mp with hqdef
  have hn2 : 2 ≤ n := le_trans hq2 (Nat.div_le_self n mp)
  rw [Nat.div_lt_iff_lt_mul (by omega : 0 < q)]
  have := Nat.add_le_mul hn2 hq2
  generalize n * q = P at this ⊢
  omega

theorem Vec3.add_sub_cancel_left {K : Type} [CommRing K] (p w : Vec3 K) :
    p + w - p = w := by
  cases p
  cases w
  show Vec3.sub (Vec3.add _ _) _ = _
  simp only [Vec3.add, Vec3.sub, Vec3.mk.injEq]
  refine ⟨?_, ?_, ?_⟩ <;> ring

/-! ### Claim theorems -/

/-- Claim C5: every digit sequence `D` consumed by a fresh walk instance
under a valid mapping yields a path of exactly `D.length + 1` entries,
beginning with the initial position `(0,0,0)` — each step, translation or
rotation, appends exactly one path point. -/
theorem claim_C5_path_length {K : Type} [CommRing K] (c s : K) (D m : List ℤ)
    (hm : ValidMapping m) :
    ∃ t : Turtle3D K, Turtle3D.init.run c s D m = some t ∧
      t.path.length = D.length + 1 ∧ t.path.head? = some ⟨0, 0, 0⟩ := by
  obtain ⟨hlen, -, hvals⟩ := hm
  obtain ⟨t, hrun⟩ := Turtle3D.run_some_of_inRange c s D hlen hvals Turtle3D.init
  refine ⟨t, hrun, ?_, ?_⟩
  · have h := Turtle3D.run_path_length hrun
    simp only [Turtle3D.init, List.length_cons, List.length_nil] at h
    omega
  · have h := Turtle3D.run_head (t := Turtle3D.init) (by simp [Turtle3D.init]) hrun
    rw [h]
    rfl

theorem claim_C5_witness :
    ∃ t : Turtle3D ℤ,
      Turtle3D.init.run 0 1 [0, 6] IDENTITY_MAPPING = some t ∧
        t.path.length = ([0, 6] : List ℤ).length + 1 ∧
        t.path.head? = some ⟨0, 0, 0⟩ :=
  claim_C5_path_length 0 1 [0, 6] IDENTITY_MAPPING (by decide)

/-- Claim C6: a step whose command index is at least 6 (a rotation) leaves
the position unchanged while still appending a path point at that unchanged
position, so the new last path entry equals the previous one
(`path[i+1] == path[i]`). -/
theorem claim_C6_rotation_noop {K : Type} [CommRing K] (c s : K)
    (digits m : List ℤ) (t t2 : Turtle3D K) (d dd : ℤ)
    (hrun : Turtle3D.init.run c s digits m = some t)
    (hlook : pyGet m (d % 12) = some dd) (hdd : 6 ≤ dd)
    (hmv : t.move c s d m = some t2) :
    t2.position = t.position ∧ t2.path = t.path ++ [t.position] ∧
      t2.path.getLast? = t.path.getLast? := by
  have hlast : t.path.getLast? = some t.position :=
    Turtle3D.run_getLast (by rfl) hrun
  unfold Turtle3D.move at hmv
  rw [hlook] at hmv
  simp only [Option.some_bind] at hmv
  rw [if_neg (by omega)] at hmv
  rcases hy : pyGet (rotAxes K) (dd - 6) with _ | a
  · rw [hy] at hmv
    simp at hmv
  · rw [hy] at hmv
    simp only [Option.some_bind, Option.some.injEq] at hmv
    subst hmv
    refine ⟨rfl, rfl, ?_⟩
    rw [List.getLast?_concat, hlast]

theorem claim_C6_witness :
    (⟨⟨0, 0, 0⟩, ⟨1, 0, 0, 0, 0, -1, 0, 1, 0⟩,
        [⟨0, 0, 0⟩, ⟨0, 0, 0⟩]⟩ : Turtle3D ℤ).position
        = (Turtle3D.init (K := ℤ)).position ∧
      (⟨⟨0, 0, 0⟩, ⟨1, 0, 0, 0, 0, -1, 0, 1, 0⟩,
        [⟨0, 0, 0⟩, ⟨0, 0, 0⟩]⟩ : Turtle3D ℤ).path
        = (Turtle3D.init (K := ℤ)).path ++ [(Turtle3D.init (K := ℤ)).position] ∧
      (⟨⟨0, 0, 0⟩, ⟨1, 0, 0, 0, 0, -1, 0, 1, 0⟩,
        [⟨0, 0, 0⟩, ⟨0, 0, 0⟩]⟩ : Turtle3D ℤ).path.getLast?
        = (Turtle3D.init (K := ℤ)).path.getLast? :=
  claim_C6_rotation_noop 0 1 [] IDENTITY_MAPPING Turtle3D.init _ 6 6 rfl
    (by decide) (by decide) (by decide)

/-- Claim C7: a step whose command index is below 6 (a translation) moves
the position by a vector of squared Euclidean norm exactly 1 — i.e. by a
unit step — regardless of the orientation accumulated along the walk,
because the accumulated orientation stays orthonormal. -/
theorem claim_C7_unit_step {K : Type} [CommRing K] (c s : K)
    (hcs : c * c + s * s = 1) (digits m : List ℤ) (t t2 : Turtle3D K)
    (d dd : ℤ) (hrun : Turtle3D.init.run c s digits m = some t)
    (hlook : pyGet m (d % 12) = some dd) (hdd : dd < 6)
    (hmv : t.move c s d m = some t2) :
    (t2.position - t.position).normSq = 1 := by
  have hO : t.rotation.IsOrtho :=
    Turtle3D.run_ortho hcs Mat3.isOrtho_one hrun
  unfold Turtle3D.move at hmv
  rw [hlook] at hmv
  simp only [Option.some_bind] at hmv
  rw [if_pos hdd] at hmv
  rcases hy : pyGet (localDirs K) dd with _ | v
  · rw [hy] at hmv
    simp at hmv
  · rw [hy] at hmv
    simp only [Option.some_bind, Option.some.injEq] at hmv
    subst hmv
    have hv1 : v.normSq = 1 := normSq_localDir (pyGet_mem hy)
    show (t.position + t.rotation.mulVec v - t.position).normSq = 1
    rw [Vec3.add_sub_cancel_left, Mat3.normSq_mulVec hO, hv1]

theorem claim_C7_witness :
    ((⟨⟨1, 0, 0⟩, Mat3.one, [⟨0, 0, 0⟩, ⟨1, 0, 0⟩]⟩ : Turtle3D ℤ).position -
        (Turtle3D.init (K := ℤ)).position).normSq = 1 :=
  claim_C7_unit_step 0 1 (by decide) [] IDENTITY_MAPPING Turtle3D.init _ 0 0
    rfl (by decide) (by decide) (by decide)

/-- Claim C8: the digit is reduced modulo 12 before the mapping lookup, so
stepping with `d`, `d + 12` and `d - 12` produces identical results for
every integer digit `d`, every mapping and every engine state — negative
and large digits are accepted and wrapped. -/
theorem claim_C8_mod12 {K : Type} [CommRing K] (c s : K) (t : Turtle3D K)
    (d : ℤ) (m : List ℤ) :
    t.move c s (d + 12) m = t.move c s d m ∧
      t.move c s (d - 12) m = t.move c s d m := by
  refine ⟨?_, ?_⟩
  · unfold Turtle3D.move
    rw [show (d + 12) % 12 = d % 12 from by omega]
  · unfold Turtle3D.move
    rw [show (d - 12) % 12 = d % 12 from by omega]

/-- Claim C9: a step whose command index is below 6 (a translation) leaves
the orientation state unchanged — only position and path are modified. -/
theorem claim_C9_translation_keeps_rotation {K : Type} [CommRing K]
    (c s : K) (t t2 : Turtle3D K) (d dd : ℤ) (m : List ℤ)
    (hlook : pyGet m (d % 12) = some dd) (hdd : dd < 6)
    (hmv : t.move c s d m = some t2) : t2.rotation = t.rotation := by
  unfold Turtle3D.move at hmv
  rw [hlook] at hmv
  simp only [Option.some_bind] at hmv
  rw [if_pos hdd] at hmv
  rcases hy : pyGet (localDirs K) dd with _ | v
  · rw [hy] at hmv
    simp at hmv
  · rw [hy] at hmv
    simp only [Option.some_bind, Option.some.injEq] at hmv
    subst hmv
    rfl

theorem claim_C9_witness :
    (⟨⟨1, 0, 0⟩, Mat3.one, [⟨0, 0, 0⟩, ⟨1, 0, 0⟩]⟩ : Turtle3D ℤ).rotation
      = (Turtle3D.init (K := ℤ)).rotation :=
  claim_C9_translation_keeps_rotation 0 1 Turtle3D.init _ 0 0
    IDENTITY_MAPPING (by decide) (by decide) (by decide)

/-- Claim C2 counterexample: `compute_walk_features` (dna_walk_base12.py)
returns Python `None` on the empty digit sequence — the walk computation
completes without error but does not yield the single-point path
`[(0,0,0)]` (or any path at all). -/
theorem claim_C2_counterexample :
    compute_walk_features (0 : ℤ) 1 [] SPIRAL_MAPPING 5000 = some none ∧
      compute_walk_features (0 : ℤ) 1 [] SPIRAL_MAPPING 5000 ≠
        some (some ([⟨0, 0, 0⟩], 0)) := by
  exact ⟨rfl, by decide⟩

/-- Claim C2 amended: the engine itself and `compute_walk`
(download_amazon.py, generate_math_walks.py) do treat the empty digit
sequence as valid and yield the single-point path `[(0,0,0)]`; but
`compute_walk_features` (dna_walk_base12.py) instead short-circuits and
returns `None` on empty input rather than a single-point path. -/
theorem claim_C2_empty_walk {K : Type} [CommRing K] (c s : K) (m : List ℤ)
    (mp : ℕ) (hmp : 0 < mp) :
    Turtle3D.init.run c s [] m = some (Turtle3D.init (K := K)) ∧
      (Turtle3D.init (K := K)).path = [⟨0, 0, 0⟩] ∧
      compute_walk c s [] m mp = some ⟨[⟨0, 0, 0⟩], []⟩ ∧
      compute_walk_features c s [] m mp = some none := by
  refine ⟨rfl, rfl, ?_, rfl⟩
  unfold compute_walk
  rw [if_neg (by omega)]
  show (Turtle3D.init.run c s
      (subsample ([] : List ℤ) (max 1 (([] : List ℤ).length / mp))) m).map
      (fun t => ({ points := t.path, base12 := [] } : WalkResult K)) = _
  rw [subsample_nil]
  rfl

theorem claim_C2_witness :
    Turtle3D.init.run (0 : ℤ) 1 [] SPIRAL_MAPPING =
        some (Turtle3D.init (K := ℤ)) ∧
      (Turtle3D.init (K := ℤ)).path = [⟨0, 0, 0⟩] ∧
      compute_walk (0 : ℤ) 1 [] SPIRAL_MAPPING 5000 = some ⟨[⟨0, 0, 0⟩], []⟩ ∧
      compute_walk_features (0 : ℤ) 1 [] SPIRAL_MAPPING 5000 = some none :=
  claim_C2_empty_walk 0 1 SPIRAL_MAPPING 5000 (by decide)

/-- Claim C3 counterexample: with the 10-digit input below and
`max_points = 3 > 0`, the stride is `max 1 (10 / 3) = 3`, the subsample
keeps indices 0, 3, 6 and 9, and so has 4 entries — more than
`max_points`. -/
theorem claim_C3_counterexample :
    ¬ ((subsample ([0, 1, 2, 3, 4, 5, 6, 7, 8, 9] : List ℤ)
        (max 1 (([0, 1, 2, 3, 4, 5, 6, 7, 8, 9] : List ℤ).length / 3))).length
          ≤ 3) := by
  have hstride : max 1 (([0, 1, 2, 3, 4, 5, 6, 7, 8, 9] : List ℤ).length / 3)
      = 3 := rfl
  rw [hstride, subsample_length (by norm_num)]
  intro h
  simp only [List.length_cons, List.length_nil] at h
  omega

/-- Claim C3 amended: the pre-subsampling step selects every stride-th
element with `stride = max(1, floor(len / max_points))` — entry `i` of the
subsample is entry `i * stride` of the input — and the resulting sequence
has `ceil(len / stride)` entries.  That count is at most
`2 * max_points - 1`, but it can exceed `max_points` itself. -/
theorem claim_C3_subsample (seq : List ℤ) (mp : ℕ) (hmp : 0 < mp) :
    (∀ i : ℕ, (subsample seq (max 1 (seq.length / mp)))[i]? =
        seq[i * max 1 (seq.length / mp)]?) ∧
      (subsample seq (max 1 (seq.length / mp))).length =
        (seq.length + max 1 (seq.length / mp) - 1) /
          max 1 (seq.length / mp) ∧
      (subsample seq (max 1 (seq.length / mp))).length ≤ 2 * mp - 1 := by
  have hk : 1 ≤ max 1 (seq.length / mp) := le_max_left _ _
  refine ⟨fun i => subsample_getElem hk seq i, subsample_length hk seq, ?_⟩
  rw [subsample_length hk seq]
  exact stride_count_le hmp

theorem claim_C3_witness :
    (subsample ([0, 1, 2, 3, 4] : List ℤ)
        (max 1 (([0, 1, 2, 3, 4] : List ℤ).length / 3))).length ≤ 2 * 3 - 1 :=
  (claim_C3_subsample [0, 1, 2, 3, 4] 3 (by decide)).2.2

/-- Claim C4 counterexample: the all-zero mapping is malformed (its values
are not distinct, so it is no bijection), yet the step neither asserts nor
fails: it succeeds and silently produces geometry (a +X unit
translation). -/
theorem claim_C4_counterexample :
    ¬ ValidMapping (List.replicate 12 (0 : ℤ)) ∧
      (Turtle3D.init (K := ℤ)).move 0 1 5 (List.replicate 12 (0 : ℤ)) =
        some ⟨⟨1, 0, 0⟩, Mat3.one, [⟨0, 0, 0⟩, ⟨1, 0, 0⟩]⟩ := by
  exact ⟨by decide, by decide⟩

/-- Claim C4 amended: the step operation performs no validation of the
mapping at all.  Every length-12 mapping with entries in `0..11` — with or
without duplicates, bijection or not — is accepted and the step succeeds,
producing geometry; the only failures malformed mappings can cause are
`IndexError`s from out-of-range lookups, never an assertion or
precondition check. -/
theorem claim_C4_no_validation {K : Type} [CommRing K] (c s : K)
    (t : Turtle3D K) (d : ℤ) (m : List ℤ) (hlen : m.length = 12)
    (hvals : ∀ v ∈ m, 0 ≤ v ∧ v < 12) :
    ∃ t2, t.move c s d m = some t2 :=
  Turtle3D.move_some_of_inRange c s t d hlen hvals

theorem claim_C4_witness :
    ∃ t2, (Turtle3D.init (K := ℤ)).move 0 1 7 (List.replicate 12 (0 : ℤ)) =
      some t2 :=
  claim_C4_no_validation 0 1 Turtle3D.init 7 (List.replicate 12 0)
    (by decide) (by decide)

/-- Claim C10: `compute_walk` returns the full, unsubsampled input sequence
as its `base12` field while its `points` path is computed from the
subsampled sequence; consequently whenever the stride
`len / max_points` is at least 2, the returned path length differs from
the returned digit-list length plus one. -/
theorem claim_C10_base12_full {K : Type} [CommRing K] (c s : K)
    (seq m : List ℤ) (mp : ℕ) (hm : ValidMapping m) (hmp : 0 < mp)
    (hq : 2 ≤ seq.length / mp) :
    ∃ w : WalkResult K, compute_walk c s seq m mp = some w ∧
      w.base12 = seq ∧
      w.points.length = (subsample seq (max 1 (seq.length / mp))).length + 1 ∧
      w.points.length ≠ w.base12.length + 1 := by
  obtain ⟨hlen, -, hvals⟩ := hm
  obtain ⟨t, hrun⟩ := Turtle3D.run_some_of_inRange c s
    (subsample seq (max 1 (seq.length / mp))) hlen hvals Turtle3D.init
  have hplen := Turtle3D.run_path_length hrun
  simp only [Turtle3D.init, List.length_cons, List.length_nil] at hplen
  refine ⟨⟨t.path, seq⟩, ?_, rfl, ?_, ?_⟩
  · unfold compute_walk
    rw [if_neg (by omega)]
    show (Turtle3D.init.run c s (subsample seq (max 1 (seq.length / mp)))
        m).map (fun t => ({ points := t.path, base12 := seq } : WalkResult K)) =
      some ({ points := t.path, base12 := seq } : WalkResult K)
    rw [hrun]
    rfl
  · show t.path.length = _
    omega
  · show t.path.length ≠ seq.length + 1
    have hmax : max 1 (seq.length / mp) = seq.length / mp := by omega
    have hsub := subsample_length (k := max 1 (seq.length / mp))
      (le_max_left _ _) seq
    rw [hmax] at hsub
    have hlt := stride_count_lt hq
    rw [hmax] at hplen
    omega

theorem claim_C10_witness :
    ∃ w : WalkResult ℤ,
      compute_walk (0 : ℤ) 1 [0, 0, 0, 0, 0, 0, 0, 0] IDENTITY_MAPPING 2 =
          some w ∧
        w.base12 = [0, 0, 0, 0, 0, 0, 0, 0] ∧
        w.points.length = (subsample ([0, 0, 0, 0, 0, 0, 0, 0] : List ℤ)
          (max 1 (([0, 0, 0, 0, 0, 0, 0, 0] : List ℤ).length / 2))).length + 1 ∧
        w.points.length ≠ w.base12.length + 1 :=
  claim_C10_base12_full 0 1 [0, 0, 0, 0, 0, 0, 0, 0] IDENTITY_MAPPING 2
    (by decide) (by decide) (by decide)

theorem sin15_pos : 0 < sin15 := by
  unfold sin15
  apply Real.sin_pos_of_pos_of_lt_pi
  · positivity
  · exact div_lt_self Real.pi_pos (by norm_num)

/-- Claim C1 counterexample: start a fresh turtle with the scripts' actual
rotation constants, rotate about +Z (digit 10 under the identity mapping),
then rotate about +X (digit 6).  The code's second step
(`Turtle3D.move`, which rotates about the fixed world +X axis) produces a
different orientation from the spec's description (`Turtle3D.moveLocalFrame`,
which rotates about the image of the local +X axis under the current
orientation): the two orientation matrices differ in entry (0,2) by
`sin15 ^ 2 ≠ 0`.  So the claimed local-frame pre-composition is not what
the code computes. -/
theorem claim_C1_counterexample :
    ((Turtle3D.init (K := ℝ)).move cos15 sin15 10 IDENTITY_MAPPING).bind
        (fun t1 => (t1.move cos15 sin15 6 IDENTITY_MAPPING).map
          Turtle3D.rotation) ≠
      ((Turtle3D.init (K := ℝ)).move cos15 sin15 10 IDENTITY_MAPPING).bind
        (fun t1 => (t1.moveLocalFrame cos15 sin15 6 IDENTITY_MAPPING).map
          Turtle3D.rotation) := by
  have hc : ((Turtle3D.init (K := ℝ)).move cos15 sin15 10
        IDENTITY_MAPPING).bind
        (fun t1 => (t1.move cos15 sin15 6 IDENTITY_MAPPING).map
          Turtle3D.rotation) =
      some ((rodrigues cos15 sin15 ⟨1, 0, 0⟩).mul
        ((rodrigues cos15 sin15 ⟨0, 0, 1⟩).mul Mat3.one)) := rfl
  have hs : ((Turtle3D.init (K := ℝ)).move cos15 sin15 10
        IDENTITY_MAPPING).bind
        (fun t1 => (t1.moveLocalFrame cos15 sin15 6 IDENTITY_MAPPING).map
          Turtle3D.rotation) =
      some ((rodrigues cos15 sin15
        (((rodrigues cos15 sin15 ⟨0, 0, 1⟩).mul Mat3.one).mulVec
          ⟨1, 0, 0⟩)).mul
        ((rodrigues cos15 sin15 ⟨0, 0, 1⟩).mul Mat3.one)) := rfl
  rw [hc, hs]
  intro h
  have h2 := Option.some.inj h
  have hm := congrArg Mat3.m02 h2
  simp only [rodrigues, Mat3.mul, Mat3.one, Mat3.mulVec] at hm
  ring_nf at hm
  nlinarith [sin15_pos, hm]

/-- Claim C1 amended: for a rotation step (command index at least 6) the
incremental 15-degree rotation is constructed about the fixed canonical
world axis for that command (the six axes being +X, -X, +Y, -Y, +Z, -Z for
commands 6..11) — not about the image of the local axis under the current
orientation — and that rotation is then left-multiplied onto the old
orientation: rotations compose extrinsically in the world frame. -/
theorem claim_C1_rotation_world_frame {K : Type} [CommRing K] (c s : K)
    (t t2 : Turtle3D K) (d dd : ℤ) (m : List ℤ) (ax : Vec3 K)
    (hlook : pyGet m (d % 12) = some dd) (hdd : 6 ≤ dd)
    (hax : pyGet (rotAxes K) (dd - 6) = some ax)
    (hmv : t.move c s d m = some t2) :
    t2.rotation = (rodrigues c s ax).mul t.rotation := by
  unfold Turtle3D.move at hmv
  rw [hlook] at hmv
  simp only [Option.some_bind] at hmv
  rw [if_neg (by omega), hax] at hmv
  simp only [Option.some_bind, Option.some.injEq] at hmv
  subst hmv
  rfl

theorem claim_C1_witness :
    (⟨⟨0, 0, 0⟩, ⟨1, 0, 0, 0, 0, -1, 0, 1, 0⟩,
        [⟨0, 0, 0⟩, ⟨0, 0, 0⟩]⟩ : Turtle3D ℤ).rotation =
      (rodrigues (0 : ℤ) 1 ⟨1, 0, 0⟩).mul
        (Turtle3D.init (K := ℤ)).rotation :=
  claim_C1_rotation_world_frame 0 1 Turtle3D.init _ 6 6 IDENTITY_MAPPING
    ⟨1, 0, 0⟩ (by decide) (by decide) (by decide) (by decide)

end DataWalker
